import Mathlib

set_option maxRecDepth 10000

/-!
Shallow embedding of the vector database `src/vec_db.py` (class `VecDB`):
a flat float32 vector store file, an IVF index build (mini-batch k-means
clustering followed by posting-list and centroid persistence) and a
cosine-similarity `retrieve` pipeline.

Modelling conventions, chosen to stay as close to the Python source as the
logic allows:

* The store file is modelled at float granularity as a flat `List α`: the
  float32 payload at byte offset `4*k` is element `k` of the list.  Where a
  claim only moves data around (insertion, row reads, initialisation) the
  float payload type `α` is kept abstract, so bit-exactness is preserved by
  construction.  Where a claim needs arithmetic (cosine scores) floats are
  modelled as rationals `ℚ`.
* Numpy float division never raises; `npDiv` marks every division the code
  performs.  Division by zero yields non-finite floats in numpy and `0` under
  Lean's total division on `ℚ`; in both semantics a value is produced and no
  failure occurs.
* The square root inside `np.linalg.norm` is not rational, so every scoring
  definition receives the square-root function `sqrtF : ℚ → ℚ` as an explicit
  parameter.  General theorems quantify over arbitrary `sqrtF` (they hold for
  the true float square root in particular); concrete evaluations use
  `modelSqrt`, which agrees with the exact IEEE square root on every value it
  is applied to in those evaluations (0, 1 and 4 are exact squares, and float
  sqrt is exact on exact squares).
* `heapq.nlargest(n, l)` and `heapq.nlargest(n, l, key)` are documented as
  `sorted(l, reverse=True)[:n]` (respectively with `key=`), a stable
  descending sort followed by truncation; `pySortDesc` is that stable sort.
* The clustering itself (`MiniBatchKMeans.fit/predict`) is an external
  library call; its output is modelled as an arbitrary list `labels` with one
  entry per row (each entry below the cluster count).  Everything the
  repository code does with that output is embedded faithfully.
* The posting-list file helpers `write_file_records` (append one id) and
  `read_file_records_mmap` (read all ids) live in `utils.py`, which is not
  part of `src/`.  Modelled from the spec: the spec's external-interface
  section defines them as append-single-id / read-all-ids over a per-centroid
  file, so a posting file holds exactly the appended ids in order, and the
  on-disk posting state is a function from centroid id to id list.
-/

namespace VecDB

universe u

variable {α : Type u}

/-- Dimension constant: `DIMENSION = 70` in `vec_db.py`. -/
def DIMENSION : Nat := 70

/-- Record count, from `_get_num_records`:
`os.path.getsize(db_path) // (DIMENSION * ELEMENT_SIZE)`.
At float granularity the byte size is four times the list length, so the
quotient by `DIMENSION * 4` bytes is the quotient of the length by
`DIMENSION`. -/
def numRecords (store : List α) : Nat := store.length / DIMENSION

/-- Row slice of the flat store: the `DIMENSION` floats starting at float
offset `i * DIMENSION` (byte offset `i * DIMENSION * ELEMENT_SIZE`). -/
def rowAt (store : List α) (i : Nat) : List α :=
  (store.drop (i * DIMENSION)).take DIMENSION

/-- Return type of `get_one_row`.  The Python function returns either a numpy
row vector or — from its `except` clause — the string
`f"An error occurred: ..."` in place of the vector.  The message text is
not modelled. -/
inductive RowResult (α : Type u) where
  | vec (v : List α)
  | errorString

/-- Embedding of `get_one_row`: memory-map one row at byte offset
`row_num * DIMENSION * ELEMENT_SIZE`.  The mmap succeeds exactly when the
file contains the full requested window, i.e. when
`(row_num + 1) * DIMENSION` floats fit in the file; otherwise numpy raises
and the `except` clause returns the error string. -/
def get_one_row (store : List α) (row_num : Nat) : RowResult α :=
  if (row_num + 1) * DIMENSION ≤ store.length then RowResult.vec (rowAt store row_num)
  else RowResult.errorString

/-- Embedding of `insert_records`: re-map the file with shape
`(num_old_records + num_new_records, DIMENSION)` — numpy extends the file to
that size in r+ mode when rows are added — and overwrite everything from
float offset `num_old_records * DIMENSION` on with the new rows.  With no new
rows the file is not extended and nothing is written.  (The subsequent
`_build_index` call touches only the index, never the store file; the index
is modelled separately.) -/
def insert_records (store : List α) (rows : List (List α)) : List α :=
  if rows.isEmpty then store
  else store.take (numRecords store * DIMENSION) ++ rows.flatten

/-- Loop body of the range grouping in `get_rows`: `start`/`prev` track the
current run; an id equal to `prev + 1` extends the run, anything else closes
it and starts a new one; the last run is appended at the end. -/
def groupRangesAux (start prev : Nat) : List Nat → List (Nat × Nat)
  | [] => [(start, prev)]
  | id :: rest =>
    if id = prev + 1 then groupRangesAux start id rest
    else (start, prev) :: groupRangesAux id id rest

/-- Range grouping of `get_rows` (empty input reaches `ids[0]` and raises,
which the caller's `except` clause turns into the empty result, so the empty
case never produces ranges). -/
def groupRanges : List Nat → List (Nat × Nat)
  | [] => []
  | id :: rest => groupRangesAux id id rest

/-- One bulk read of `get_rows`: seek to `start * DIMENSION * ELEMENT_SIZE`
and read `range_size` consecutive rows, then cut the block into rows. -/
def readRange (store : List α) (r : Nat × Nat) : List (List α) :=
  (List.range (r.2 + 1 - r.1)).map fun j => rowAt store (r.1 + j)

/-- Embedding of `get_rows`.  The Python code reads every range and fails
only inside the `try` block: an empty id list raises `IndexError` at
`ids[0]`; a range that extends past the end of the file produces a short
read, which fails in `np.frombuffer`/`reshape` or in the per-row assignment
loop.  Every failure is swallowed by the `except` clause, which prints a
message and returns an empty `(0, DIMENSION)` array.  Hence: result rows in
input order when all ranges lie inside the file, the empty list
otherwise. -/
def get_rows (store : List α) (ids : List Nat) : List (List α) :=
  match ids with
  | [] => []
  | _ :: _ =>
    let rs := groupRanges ids
    if rs.all (fun r => (r.2 + 1) * DIMENSION ≤ store.length) then
      (rs.map (readRange store)).flatten
    else []

/-- Numpy float division, used for every `/` the scoring code performs.  It
never raises: division by zero yields non-finite floats in numpy (with only a
runtime warning) and `0` under Lean's total `ℚ` division; in both semantics a
plain value is produced. -/
def npDiv (a b : ℚ) : ℚ := a / b

/-- Dot product `np.dot` of two equal-length vectors. -/
def dot (a b : List ℚ) : ℚ := ((a.zip b).map fun p => p.1 * p.2).sum

/-- Sum of squares of a vector, the radicand inside `np.linalg.norm`. -/
def sumSq (v : List ℚ) : ℚ := (v.map fun x => x * x).sum

/-- Euclidean norm `np.linalg.norm v = sqrt (Σ vᵢ²)`, with the square root
passed in as `sqrtF`. -/
def npNorm (sqrtF : ℚ → ℚ) (v : List ℚ) : ℚ := sqrtF (sumSq v)

/-- Embedding of `_cal_score`: cosine similarity
`dot(vec1, vec2) / (‖vec1‖ * ‖vec2‖)`, computed with unguarded division. -/
def cal_score (sqrtF : ℚ → ℚ) (vec1 vec2 : List ℚ) : ℚ :=
  npDiv (dot vec1 vec2) (npNorm sqrtF vec1 * npNorm sqrtF vec2)

/-- Embedding of `_vectorized_cal_score`: row-wise cosine similarity of each
row of `vec1` against the broadcast `vec2`, with unguarded division. -/
def vectorized_cal_score (sqrtF : ℚ → ℚ) (vec1 : List (List ℚ)) (vec2 : List ℚ) : List ℚ :=
  vec1.map fun u => npDiv (dot u vec2) (npNorm sqrtF u * npNorm sqrtF vec2)

/-- Insertion step of the stable descending sort: place `x` in front of the
first element `y` with `y ≤ x` under the sort key, so that elements comparing
equal keep their input order (CPython's `sorted` is stable, and
`heapq.nlargest` is documented as `sorted(..., reverse=True)[:n]`). -/
def pyInsert (le : α → α → Bool) (x : α) : List α → List α
  | [] => [x]
  | y :: ys => if le y x then x :: y :: ys else y :: pyInsert le x ys

/-- Stable descending sort, modelling Python's `sorted(l, reverse=True)`
under the comparison `le`. -/
def pySortDesc (le : α → α → Bool) : List α → List α
  | [] => []
  | x :: xs => pyInsert le x (pySortDesc le xs)

/-- Model of `heapq.nlargest(n, l)` (documented equivalent:
`sorted(l, reverse=True)[:n]`, a stable descending sort truncated to `n`). -/
def nlargest (n : Nat) (le : α → α → Bool) (l : List α) : List α :=
  (pySortDesc le l).take n

/-- Comparison used by `heapq.nlargest(top_k, results, key=lambda x: x[0])`:
only the score component is compared, ties keep input order. -/
def leKey (a b : ℚ × Nat) : Bool := decide (a.1 ≤ b.1)

/-- Comparison used by `heapq.nlargest(k, heap)` on `(score, index)` tuples:
Python tuple comparison is lexicographic. -/
def leLex (a b : ℚ × Nat) : Bool := decide (a.1 < b.1 ∨ (a.1 = b.1 ∧ a.2 ≤ b.2))

/-- Centroid-count policy of `_build_index`, line for line:
`no_centroids = int(np.sqrt(N)) * 2`, then overwritten with factor 5 when
`N == 15 * 10**6` and factor 6 when `N == 20 * 10**6`.  For the magnitudes
involved `int(np.sqrt(N))` equals the integer square root. -/
def no_centroids (n : Nat) : Nat :=
  let c := Nat.sqrt n * 2
  let c2 := if n = 15 * 10 ^ 6 then Nat.sqrt n * 5 else c
  if n = 20 * 10 ^ 6 then Nat.sqrt n * 6 else c2

/-- Probe-count policy of `retrieve`: default 5, overridden to 12 when
`N <= 10*10**6`, and to 10 when `N == 15*10**6`. -/
def n_probs (n : Nat) : Nat :=
  if n ≤ 10 * 10 ^ 6 then 12 else if n = 15 * 10 ^ 6 then 10 else 5

/-- Posting list written for centroid id `c` by `_build_index`:
`np.where(labels == label)[0]` lists, in ascending order, the row indices
whose label is `c`; each is appended to the centroid's file in that order. -/
def postingList (labels : List Nat) (c : Nat) : List Nat :=
  (List.range labels.length).filter fun i => decide (labels.getD i 0 = c)

/-- Model of `np.unique(labels)`: the distinct values, in ascending order. -/
def npUnique (labels : List Nat) : List Nat :=
  (List.range (labels.foldr max 0 + 1)).filter fun c => decide (c ∈ labels)

/-- File-system operations `_build_index` performs on the index directory,
in program order. -/
inductive FsOp where
  | removeIndexDir
  | makeIndexDir
  | writePosting (label idx : Nat)
  | writeCentroids

/-- On-disk state of the index directory: whether the directory exists, the
contents of each posting file (empty list = missing file), and whether the
centroid file has been written. -/
structure IndexDisk where
  dirExists : Bool
  postings : Nat → List Nat
  hasCentroids : Bool

/-- Effect of one file-system operation: `shutil.rmtree` removes the
directory with all posting and centroid files; `os.makedirs` creates the
directory; a posting write appends one id to one centroid's file; the
centroid write creates `centroids.bin`. -/
def applyOp (d : IndexDisk) : FsOp → IndexDisk
  | FsOp.removeIndexDir => ⟨false, fun _ => [], false⟩
  | FsOp.makeIndexDir => { d with dirExists := true }
  | FsOp.writePosting l i =>
    { d with postings := fun c => if c = l then d.postings c ++ [i] else d.postings c }
  | FsOp.writeCentroids => { d with hasCentroids := true }

/-- Run a prefix of the build's file-system operations (an interrupted build
ran exactly some prefix). -/
def applyOps (d : IndexDisk) (ops : List FsOp) : IndexDisk := ops.foldl applyOp d

/-- File-system trace of `_build_index` after clustering produced `labels`:
remove the old index directory if it exists, recreate it, append every row id
to its centroid's posting file (per unique label, ascending row order inside
each label), and write the centroid file last. -/
def buildOps (oldIndexExists : Bool) (labels : List Nat) : List FsOp :=
  (if oldIndexExists then [FsOp.removeIndexDir] else []) ++ [FsOp.makeIndexDir]
    ++ (npUnique labels).flatMap (fun l => (postingList labels l).map (FsOp.writePosting l))
    ++ [FsOp.writeCentroids]

/-- Embedding of `_get_top_centroids`: score every centroid against the query
with `_vectorized_cal_score`, pair the scores with the centroid indices, and
take `heapq.nlargest(k, heap)` under tuple comparison. -/
def get_top_centroids (sqrtF : ℚ → ℚ) (centroids : List (List ℚ)) (query : List ℚ)
    (k : Nat) : List (ℚ × Nat) :=
  nlargest k leLex ((vectorized_cal_score sqrtF centroids query).zip
    (List.range centroids.length))

/-- Candidate row ids gathered by `retrieve`: the posting lists of the
selected centroids, concatenated in selection order
(`chain.from_iterable`). -/
def probed_ids (sqrtF : ℚ → ℚ) (store : List ℚ) (centroids : List (List ℚ))
    (postings : Nat → List Nat) (query : List ℚ) : List Nat :=
  ((get_top_centroids sqrtF centroids query (n_probs (numRecords store))).map
    (fun c => postings c.2)).flatten

/-- Embedding of `retrieve`: gather candidate ids from the probed posting
lists, batch-read the candidate rows, score them against the query
(`dot / (norms * query_norm)`, unguarded), pair scores with ids, keep
`heapq.nlargest(top_k, results, key=score)` and strip the scores. -/
def retrieve (sqrtF : ℚ → ℚ) (store : List ℚ) (centroids : List (List ℚ))
    (postings : Nat → List Nat) (query : List ℚ) (top_k : Nat) : List Nat :=
  let ids := probed_ids sqrtF store centroids postings query
  let data := get_rows store ids
  let scores := data.map fun r => npDiv (dot r query) (npNorm sqrtF r * npNorm sqrtF query)
  (nlargest top_k leKey (scores.zip ids)).map fun p => p.2

/-- Result of `VecDB.__init__`: either a store or the `ValueError` raised
when `new_db=True` comes without a size. -/
inductive InitResult (α : Type u) where
  | ok (store : List α)
  | valueError

/-- Embedding of `generate_database`: `size` rows of `DIMENSION` freshly
generated floats.  The seeded numpy generator is an external library; it is
modelled as an arbitrary generator function `gen row col`. -/
def generate_database (gen : Nat → Nat → α) (size : Nat) : List α :=
  ((List.range size).map fun i => (List.range DIMENSION).map (gen i)).flatten

/-- Embedding of `VecDB.__init__`: with `new_db=True` a missing size raises
`ValueError`; otherwise any existing database file at the path is deleted
(`os.remove`) and a fresh store of `db_size` generated vectors is written, so
the result never depends on the prior file contents.  With `new_db=False`
the existing file is left as the store. -/
def vecdb_init (prior : Option (List α)) (new_db : Bool) (db_size : Option Nat)
    (gen : Nat → Nat → α) : InitResult α :=
  if new_db then
    match db_size with
    | none => InitResult.valueError
    | some sz => InitResult.ok (generate_database gen sz)
  else InitResult.ok (prior.getD [])

/-- Concrete square root used in closed evaluations.  It agrees with the
exact (and hence with the IEEE-rounded) square root on every radicand
appearing in those evaluations: 0, 1 and 4. -/
def modelSqrt (q : ℚ) : ℚ :=
  if q = 0 then 0 else if q = 1 then 1 else if q = 4 then 2 else q

/-- Unit vector `(1, 0, …, 0)` of dimension 70. -/
def unit0 : List ℚ := 1 :: List.replicate 69 0

/-- Vector `(2, 0, …, 0)` of dimension 70 — parallel to `unit0`, so its
cosine score against any query equals that of `unit0` exactly, in float
arithmetic as well (scaling by 2 is exact in binary floating point). -/
def two0 : List ℚ := 2 :: List.replicate 69 0

/-- Zero vector of dimension 70 (a zero-norm operand). -/
def zero70 : List ℚ := List.replicate 70 0

/-- Two-row store holding `unit0` at row 0 and `two0` at row 1. -/
def db2 : List ℚ := unit0 ++ two0

/-- Centroids of a 2-cluster index over `db2` in which each row is its own
cluster (k-means centers of singleton clusters are the points themselves). -/
def cents2 : List (List ℚ) := [unit0, two0]

/-- Labels assigning row 0 to centroid 0 and row 1 to centroid 1. -/
def labels2 : List Nat := [0, 1]

/-- On-disk posting state built from `labels2`. -/
def postings2 (c : Nat) : List Nat := postingList labels2 c

/-- Labels for a 100-row store split into 20 clusters of 5 consecutive rows
each (`no_centroids 100 = 20`). -/
def labels100 : List Nat := (List.range 100).map fun i => i / 5

/-- 100-row store, each row `unit0`. -/
def db100 : List ℚ := (List.replicate 100 unit0).flatten

/-- Twenty centroids for the 100-row store. -/
def cents20 : List (List ℚ) := List.replicate 20 unit0

/-- On-disk posting state built from `labels100`: posting list `c` holds rows
`5c..5c+4`. -/
def postings100 (c : Nat) : List Nat := postingList labels100 c

/-- A published, fully written index for a one-row store: directory present,
posting file for centroid 0 holding row 0, centroid file present. -/
def priorDisk : IndexDisk := ⟨true, fun c => if c = 0 then [0] else [], true⟩

end VecDB

namespace VecDB

variable {α : Type u}

theorem dimension_pos : 0 < DIMENSION := by decide

theorem lt_numRecords_iff (store : List α) (i : Nat) :
    i < numRecords store ↔ (i + 1) * DIMENSION ≤ store.length := by
  unfold numRecords
  rw [Nat.lt_iff_add_one_le]
  exact Nat.le_div_iff_mul_le dimension_pos

theorem flatten_length_of_dim (rows : List (List α))
    (h : ∀ r ∈ rows, r.length = DIMENSION) :
    rows.flatten.length = rows.length * DIMENSION := by
  induction rows with
  | nil => simp
  | cons r rs ih =>
    simp only [List.flatten_cons, List.length_append, List.length_cons]
    rw [h r (List.mem_cons_self r rs), ih fun x hx => h x (List.mem_cons_of_mem r hx)]
    ring

theorem rowAt_append_right (A B : List α) (k j : Nat) (h : A.length = k * DIMENSION) :
    rowAt (A ++ B) (k + j) = rowAt B j := by
  unfold rowAt
  rw [show (k + j) * DIMENSION = A.length + j * DIMENSION by rw [h]; ring, List.drop_append]

theorem rowAt_append_left (A B : List α) (i : Nat) (h : (i + 1) * DIMENSION ≤ A.length) :
    rowAt (A ++ B) i = rowAt A i := by
  have h0 : i * DIMENSION + DIMENSION ≤ A.length := by
    calc i * DIMENSION + DIMENSION = (i + 1) * DIMENSION := by ring
      _ ≤ A.length := h
  have h1 : i * DIMENSION ≤ A.length := by omega
  have h2 : DIMENSION ≤ A.length - i * DIMENSION := by omega
  unfold rowAt
  rw [List.drop_append_eq_append_drop, Nat.sub_eq_zero_of_le h1, List.drop_zero,
    List.take_append_eq_append_take, List.length_drop,
    Nat.sub_eq_zero_of_le h2, List.take_zero, List.append_nil]

theorem rowAt_take (store : List α) (m i : Nat) (h : (i + 1) * DIMENSION ≤ m) :
    rowAt (store.take m) i = rowAt store i := by
  have h2 : DIMENSION ≤ m - i * DIMENSION := by
    have : i * DIMENSION + DIMENSION ≤ m := by nlinarith
    omega
  unfold rowAt
  rw [List.drop_take, List.take_take, Nat.min_eq_left h2]

theorem rowAt_flatten (rows : List (List α)) (j : Nat)
    (h : ∀ r ∈ rows, r.length = DIMENSION) (hj : j < rows.length) :
    rowAt rows.flatten j = rows.getD j [] := by
  induction rows generalizing j with
  | nil => simp at hj
  | cons r rs ih =>
    have hr : r.length = DIMENSION := h r (List.mem_cons_self r rs)
    cases j with
    | zero =>
      simp only [List.flatten_cons, List.getD_cons_zero]
      unfold rowAt
      rw [Nat.zero_mul, List.drop_zero, ← hr, List.take_left]
    | succ j =>
      simp only [List.flatten_cons, List.getD_cons_succ]
      rw [show j + 1 = 1 + j by ring,
        rowAt_append_right r rs.flatten 1 j (by rw [hr]; ring)]
      exact ih j (fun x hx => h x (List.mem_cons_of_mem r hx)) (Nat.lt_of_succ_lt_succ hj)

theorem insert_records_cons (store : List α) (rows : List (List α)) (hne : rows ≠ []) :
    insert_records store rows
      = store.take (numRecords store * DIMENSION) ++ rows.flatten := by
  unfold insert_records
  rw [if_neg]
  simpa [List.isEmpty_iff] using hne

theorem take_records_length (store : List α) :
    (store.take (numRecords store * DIMENSION)).length = numRecords store * DIMENSION := by
  rw [List.length_take, Nat.min_eq_left]
  exact Nat.div_mul_le_self _ _

theorem insert_records_numRecords (store : List α) (rows : List (List α))
    (h : ∀ r ∈ rows, r.length = DIMENSION) :
    numRecords (insert_records store rows) = numRecords store + rows.length := by
  cases hrows : rows with
  | nil => simp [insert_records]
  | cons r rs =>
    rw [← hrows, insert_records_cons store rows (by rw [hrows]; exact List.cons_ne_nil r rs)]
    have hlen : (store.take (numRecords store * DIMENSION) ++ rows.flatten).length
        = (numRecords store + rows.length) * DIMENSION := by
      rw [List.length_append, take_records_length, flatten_length_of_dim rows h]
      ring
    show (store.take (numRecords store * DIMENSION) ++ rows.flatten).length / DIMENSION
        = numRecords store + rows.length
    rw [hlen, Nat.mul_div_cancel _ dimension_pos]

/-- C1: the round trip through the store file is exact.  Appending a batch of
dimension-70 rows places row `j` of the batch at row id
`numRecords store + j`, and `get_one_row` on that id returns exactly the
row that was written (the float payload type is abstract, so the returned
values are the written values, bit for bit). -/
theorem round_trip_insert_get (store : List α) (rows : List (List α)) (j : Nat)
    (hdim : ∀ r ∈ rows, r.length = DIMENSION) (hj : j < rows.length) :
    get_one_row (insert_records store rows) (numRecords store + j)
      = RowResult.vec (rows.getD j []) := by
  have hne : rows ≠ [] := by
    intro hh
    rw [hh] at hj
    simp at hj
  rw [insert_records_cons store rows hne]
  have hAlen := take_records_length store
  have hflen := flatten_length_of_dim rows hdim
  have hcond : (numRecords store + j + 1) * DIMENSION
      ≤ (store.take (numRecords store * DIMENSION) ++ rows.flatten).length := by
    rw [List.length_append, hAlen, hflen]
    have h1 : numRecords store + j + 1 ≤ numRecords store + rows.length := by omega
    calc (numRecords store + j + 1) * DIMENSION
        ≤ (numRecords store + rows.length) * DIMENSION := Nat.mul_le_mul_right _ h1
      _ = numRecords store * DIMENSION + rows.length * DIMENSION := by ring
  unfold get_one_row
  rw [if_pos hcond, rowAt_append_right _ _ _ _ hAlen, rowAt_flatten rows j hdim hj]

/-- Witness for C1 at a concrete input: a one-row store, one appended row. -/
theorem round_trip_insert_get_witness :
    get_one_row (insert_records (unit0 : List ℚ) [two0]) (numRecords (unit0 : List ℚ) + 0)
      = RowResult.vec ([two0].getD 0 []) :=
  round_trip_insert_get unit0 [two0] 0 (by decide) (by decide)

/-- C5: inserting a batch of dimension-70 rows increases `numRecords` by
exactly the batch length, and every pre-existing row id still reads back,
via `get_one_row`, exactly the vector it held before the insertion. -/
theorem insert_count_and_frame (store : List α) (rows : List (List α))
    (hdim : ∀ r ∈ rows, r.length = DIMENSION) :
    numRecords (insert_records store rows) = numRecords store + rows.length ∧
    ∀ i, i < numRecords store →
      get_one_row (insert_records store rows) i = get_one_row store i := by
  refine ⟨insert_records_numRecords store rows hdim, ?_⟩
  intro i hi
  cases hrows : rows with
  | nil => simp [insert_records]
  | cons r rs =>
    rw [← hrows, insert_records_cons store rows (by rw [hrows]; exact List.cons_ne_nil r rs)]
    have hAlen := take_records_length store
    have hiA : (i + 1) * DIMENSION ≤ numRecords store * DIMENSION :=
      Nat.mul_le_mul_right _ hi
    have hold : (i + 1) * DIMENSION ≤ store.length := (lt_numRecords_iff store i).mp hi
    have hcond : (i + 1) * DIMENSION
        ≤ (store.take (numRecords store * DIMENSION) ++ rows.flatten).length := by
      rw [List.length_append, hAlen]
      exact le_trans hiA (Nat.le_add_right _ _)
    unfold get_one_row
    rw [if_pos hcond, if_pos hold,
      rowAt_append_left _ _ _ (by rw [hAlen]; exact hiA), rowAt_take _ _ _ hiA]

/-- Witness for C5 at a concrete input: a one-row store, one appended row. -/
theorem insert_count_and_frame_witness :
    numRecords (insert_records (zero70 : List ℚ) [unit0])
      = numRecords (zero70 : List ℚ) + 1 :=
  (insert_count_and_frame zero70 [unit0] (by decide)).1

/-- C10: constructing with `new_db = True` over an existing database file is
destructive: the result is exactly the freshly generated `db_size`-row store,
it does not depend on the prior file contents in any way (deleting the file
first and regenerating), and the new store holds `db_size` records. -/
theorem new_db_init_discards_prior (prior : List α) (gen : Nat → Nat → α) (sz : Nat) :
    vecdb_init (some prior) true (some sz) gen
        = InitResult.ok (generate_database gen sz) ∧
    vecdb_init (some prior) true (some sz) gen = vecdb_init none true (some sz) gen ∧
    numRecords (generate_database gen sz) = sz := by
  refine ⟨rfl, rfl, ?_⟩
  have hdim : ∀ r ∈ (List.range sz).map fun i => (List.range DIMENSION).map (gen i),
      r.length = DIMENSION := by
    intro r hr
    simp only [List.mem_map] at hr
    obtain ⟨i, _, rfl⟩ := hr
    simp
  unfold numRecords generate_database
  rw [flatten_length_of_dim _ hdim, List.length_map, List.length_range,
    Nat.mul_div_cancel _ dimension_pos]

end VecDB

namespace VecDB

variable {α : Type u}

theorem groupRangesAux_expand (rest : List Nat) :
    ∀ s p : Nat, s ≤ p →
      (groupRangesAux s p rest).flatMap (fun r => List.range' r.1 (r.2 + 1 - r.1))
        = List.range' s (p + 1 - s) ++ rest := by
  induction rest with
  | nil =>
    intro s p _
    simp [groupRangesAux]
  | cons id r ih =>
    intro s p hsp
    unfold groupRangesAux
    by_cases hid : id = p + 1
    · rw [if_pos hid, ih s id (by omega)]
      subst hid
      have h1 : p + 1 + 1 - s = (p + 1 - s) + 1 := by omega
      rw [h1, List.range'_concat]
      have h2 : s + 1 * (p + 1 - s) = p + 1 := by omega
      rw [h2, List.append_assoc]
      rfl
    · rw [if_neg hid]
      simp only [List.flatMap_cons]
      rw [ih id id le_rfl]
      have h3 : id + 1 - id = 1 := by omega
      rw [h3, List.range'_one]
      rfl

theorem groupRanges_expand (ids : List Nat) :
    (groupRanges ids).flatMap (fun r => List.range' r.1 (r.2 + 1 - r.1)) = ids := by
  cases ids with
  | nil => rfl
  | cons id rest
    =>
    unfold groupRanges
    rw [groupRangesAux_expand rest id id le_rfl]
    have h1 : id + 1 - id = 1 := by omega
    rw [h1, List.range'_one]
    rfl

theorem groupRangesAux_fst_le_snd (rest : List Nat) :
    ∀ s p : Nat, s ≤ p → ∀ r ∈ groupRangesAux s p rest, r.1 ≤ r.2 := by
  induction rest with
  | nil =>
    intro s p hsp r hr
    simp only [groupRangesAux, List.mem_singleton] at hr
    subst hr
    exact hsp
  | cons id rs ih =>
    intro s p hsp r hr
    unfold groupRangesAux at hr
    by_cases hid : id = p + 1
    · rw [if_pos hid] at hr
      exact ih s id (by omega) r hr
    · rw [if_neg hid, List.mem_cons] at hr
      rcases hr with hr | hr
      · subst hr; exact hsp
      · exact ih id id le_rfl r hr

theorem groupRanges_fst_le_snd (ids : List Nat) :
    ∀ r ∈ groupRanges ids, r.1 ≤ r.2 := by
  cases ids with
  | nil => intro r hr; simp [groupRanges] at hr
  | cons id rest => exact groupRangesAux_fst_le_snd rest id id le_rfl

theorem snd_mem_of_mem_groupRanges (ids : List Nat) (r : Nat × Nat)
    (hr : r ∈ groupRanges ids) : r.2 ∈ ids := by
  have hle := groupRanges_fst_le_snd ids r hr
  have : r.2 ∈ (groupRanges ids).flatMap fun t => List.range' t.1 (t.2 + 1 - t.1) :=
    List.mem_flatMap.mpr ⟨r, hr, List.mem_range'_1.mpr ⟨hle, by omega⟩⟩
  rwa [groupRanges_expand ids] at this

theorem exists_range_end_ge (ids : List Nat) (id : Nat) (hid : id ∈ ids) :
    ∃ r ∈ groupRanges ids, id ≤ r.2 := by
  rw [← groupRanges_expand ids] at hid
  obtain ⟨r, hr, hmem⟩ := List.mem_flatMap.mp hid
  have hle := groupRanges_fst_le_snd ids r hr
  have := List.mem_range'_1.mp hmem
  exact ⟨r, hr, by omega⟩

theorem get_rows_of_bounds (store : List α) (ids : List Nat) (hne : ids ≠ [])
    (hb : ∀ id ∈ ids, (id + 1) * DIMENSION ≤ store.length) :
    get_rows store ids = ids.map (rowAt store) := by
  obtain ⟨id0, rest, rfl⟩ : ∃ a l, ids = a :: l := by
    cases ids with
    | nil => exact absurd rfl hne
    | cons a l => exact ⟨a, l, rfl⟩
  show (if (groupRanges (id0 :: rest)).all
        (fun r => decide ((r.2 + 1) * DIMENSION ≤ store.length)) = true then
      ((groupRanges (id0 :: rest)).map (readRange store)).flatten
    else []) = (id0 :: rest).map (rowAt store)
  rw [if_pos]
  · have hread : ∀ r ∈ groupRanges (id0 :: rest),
        readRange store r = (List.range' r.1 (r.2 + 1 - r.1)).map (rowAt store) := by
      intro r _
      unfold readRange
      rw [List.range'_eq_map_range, List.map_map]
      rfl
    rw [List.map_congr_left hread]
    have : ((groupRanges (id0 :: rest)).map
          fun r => (List.range' r.1 (r.2 + 1 - r.1)).map (rowAt store)).flatten
        = List.map (rowAt store)
            ((groupRanges (id0 :: rest)).flatMap fun r => List.range' r.1 (r.2 + 1 - r.1)) := by
      rw [List.map_flatMap]
      rfl
    rw [this, groupRanges_expand]
  · rw [List.all_eq_true]
    intro r hr
    exact decide_eq_true (hb r.2 (snd_mem_of_mem_groupRanges _ r hr))

theorem get_rows_of_overflow (store : List α) (ids : List Nat)
    (h : ∃ id ∈ ids, store.length < (id + 1) * DIMENSION) :
    get_rows store ids = [] := by
  obtain ⟨id0, hmem, hid0⟩ := h
  cases ids with
  | nil => rfl
  | cons a l =>
    show (if (groupRanges (a :: l)).all
          (fun r => decide ((r.2 + 1) * DIMENSION ≤ store.length)) = true then
        ((groupRanges (a :: l)).map (readRange store)).flatten
      else []) = []
    rw [if_neg]
    intro hall
    rw [List.all_eq_true] at hall
    obtain ⟨r, hr, hle⟩ := exists_range_end_ge (a :: l) id0 hmem
    have := of_decide_eq_true (hall r hr)
    have hmono : (id0 + 1) * DIMENSION ≤ (r.2 + 1) * DIMENSION :=
      Nat.mul_le_mul_right _ (by omega)
    omega

/-- C4 (amended): the row accessors substitute data values for errors rather
than returning typed errors.  `get_one_row` on an id outside `[0, N)` returns
the error-message string (the `except` clause's f-string) in place of the
vector, and `get_rows` returns the empty array both on an empty id list and
whenever any requested id lies outside `[0, N)` (the read failure is caught,
printed, and swallowed).  No typed `OutOfRange` or `IOFailure` value exists
anywhere in these code paths. -/
theorem accessors_substitute_error_values (store : List α) (i : Nat) (ids : List Nat) :
    (numRecords store ≤ i → get_one_row store i = RowResult.errorString) ∧
    (i < numRecords store → get_one_row store i = RowResult.vec (rowAt store i)) ∧
    ((ids = [] ∨ ∃ id ∈ ids, numRecords store ≤ id) → get_rows store ids = []) := by
  refine ⟨?_, ?_, ?_⟩
  · intro hi
    unfold get_one_row
    rw [if_neg]
    intro hcond
    exact absurd ((lt_numRecords_iff store i).mpr hcond) (Nat.not_lt.mpr hi)
  · intro hi
    unfold get_one_row
    rw [if_pos ((lt_numRecords_iff store i).mp hi)]
  · rintro (rfl | ⟨id, hmem, hid⟩)
    · rfl
    · refine get_rows_of_overflow store ids ⟨id, hmem, ?_⟩
      have := (lt_numRecords_iff store id).not
      omega

/-- Witness for C4's amended statement at a concrete input: a one-row store
and the out-of-range id 7. -/
theorem accessors_substitute_error_values_witness :
    get_one_row (two0 : List ℚ) 7 = RowResult.errorString :=
  (accessors_substitute_error_values two0 7 []).1 (by decide)

/-- C4 counterexample: on the one-row store `unit0`, the out-of-range id 5
yields the error-message string in place of vector data (there is no typed
error in the function's value range at all), and `get_rows [0, 5]` — where
id 0 is perfectly readable — silently returns the empty array, while
`get_rows [0]` returns data.  This refutes the claim that these failures
surface as typed `OutOfRange`/`IOFailure` errors. -/
theorem accessors_error_substitution_counterexample :
    get_one_row (unit0 : List ℚ) 5 = RowResult.errorString ∧
    get_rows (unit0 : List ℚ) [0, 5] = [] ∧
    get_rows (unit0 : List ℚ) [0] = [unit0] := by
  refine ⟨rfl, rfl, ?_⟩
  show [List.take DIMENSION (List.drop 0 unit0)] = [unit0]
  rw [List.drop_zero, List.take_of_length_le (by decide)]

end VecDB

namespace VecDB

theorem mem_postingList (labels : List Nat) (c i : Nat) :
    i ∈ postingList labels c ↔ i < labels.length ∧ labels.getD i 0 = c := by
  unfold postingList
  rw [List.mem_filter, List.mem_range, decide_eq_true_eq]

theorem postingList_nodup (labels : List Nat) (c : Nat) :
    (postingList labels c).Nodup :=
  List.Nodup.filter _ (List.nodup_range _)

theorem le_foldr_max (l : List Nat) : ∀ x ∈ l, x ≤ l.foldr max 0 := by
  induction l with
  | nil => intro x hx; simp at hx
  | cons a t ih =>
    intro x hx
    rcases List.mem_cons.mp hx with rfl | hx
    · exact le_max_left _ _
    · exact le_trans (ih x hx) (le_max_right _ _)

theorem mem_npUnique (labels : List Nat) (c : Nat) :
    c ∈ npUnique labels ↔ c ∈ labels := by
  unfold npUnique
  rw [List.mem_filter, List.mem_range, decide_eq_true_eq]
  constructor
  · exact fun h => h.2
  · intro h
    exact ⟨Nat.lt_succ_of_le (le_foldr_max labels c h), h⟩

theorem npUnique_nodup (labels : List Nat) : (npUnique labels).Nodup :=
  List.Nodup.filter _ (List.nodup_range _)

theorem getD_mem_of_lt (labels : List Nat) (i : Nat) (hi : i < labels.length) :
    labels.getD i 0 ∈ labels := by
  rw [List.getD_eq_getElem?_getD, List.getElem?_eq_getElem hi]
  exact List.getElem_mem hi

/-- C2: the posting lists written by `_build_index` partition the row-id
range.  For every label assignment produced by clustering (one label per
row), the concatenation of the posting lists of all distinct labels — exactly
the files the build writes — is a permutation of `0, …, N-1`: every row id in
`[0, N)` appears in exactly one posting list, with no duplicates and no
gaps. -/
theorem posting_lists_partition (labels : List Nat) :
    ((npUnique labels).flatMap (postingList labels)).Perm
      (List.range labels.length) := by
  have hnodup : ((npUnique labels).flatMap (postingList labels)).Nodup := by
    rw [List.nodup_flatMap]
    refine ⟨fun c _ => postingList_nodup labels c, ?_⟩
    have hpair := npUnique_nodup labels
    refine List.Pairwise.imp_of_mem ?_ hpair
    intro a b _ _ hab
    show List.Disjoint (postingList labels a) (postingList labels b)
    intro x hxa hxb
    have ha := (mem_postingList labels a x).mp hxa
    have hb := (mem_postingList labels b x).mp hxb
    exact hab (ha.2 ▸ hb.2 ▸ rfl)
  refine (List.perm_ext_iff_of_nodup hnodup (List.nodup_range _)).mpr ?_
  intro a
  rw [List.mem_flatMap, List.mem_range]
  constructor
  · rintro ⟨c, _, hc⟩
    exact ((mem_postingList labels c a).mp hc).1
  · intro ha
    refine ⟨labels.getD a 0, ?_, ?_⟩
    · exact (mem_npUnique labels _).mpr (getD_mem_of_lt labels a ha)
    · exact (mem_postingList labels _ a).mpr ⟨ha, rfl⟩

theorem sqrt_eq_of_bounds (a n : Nat) (h1 : a * a ≤ n) (h2 : n < (a + 1) * (a + 1)) :
    Nat.sqrt n = a :=
  le_antisymm (Nat.lt_succ_iff.mp (Nat.sqrt_lt.mpr h2)) (Nat.le_sqrt.mpr h1)

theorem sqrt_15000000 : Nat.sqrt 15000000 = 3872 :=
  sqrt_eq_of_bounds 3872 15000000 (by norm_num) (by norm_num)

theorem sqrt_15000001 : Nat.sqrt 15000001 = 3872 :=
  sqrt_eq_of_bounds 3872 15000001 (by norm_num) (by norm_num)

theorem sqrt_20000000 : Nat.sqrt 20000000 = 4472 :=
  sqrt_eq_of_bounds 4472 20000000 (by norm_num) (by norm_num)

/-- C6 counterexample: the centroid-count policy is not a monotonic step
function of the store size.  At `N = 15,000,000` the exact-equality branch
fires and `no_centroids` jumps to `3872 × 5 = 19360`, while at
`N = 15,000,001` it falls back to the base tier `3872 × 2 = 7744`, so the
function strictly decreases across that boundary. -/
theorem no_centroids_not_monotone :
    ¬ (no_centroids (15 * 10 ^ 6) ≤ no_centroids (15 * 10 ^ 6 + 1)) := by
  have h1 : no_centroids (15 * 10 ^ 6) = 19360 := by
    unfold no_centroids
    norm_num [sqrt_15000000]
  have h2 : no_centroids (15 * 10 ^ 6 + 1) = 7744 := by
    unfold no_centroids
    norm_num [sqrt_15000001]
  rw [h1, h2]
  norm_num

/-- C6 (amended): the large-size multipliers apply only at the two exact
store sizes `15 * 10^6` and `20 * 10^6`; every other size — including every
other size inside any putative large tier — gets the base count
`floor(sqrt N) × 2`.  The policy is therefore an exact-equality special case,
not a monotonic step function. -/
theorem no_centroids_exact_equality_tiers :
    (∀ n : Nat, n ≠ 15 * 10 ^ 6 → n ≠ 20 * 10 ^ 6 → no_centroids n = Nat.sqrt n * 2) ∧
    no_centroids (15 * 10 ^ 6) = 3872 * 5 ∧
    no_centroids (20 * 10 ^ 6) = 4472 * 6 := by
  refine ⟨?_, ?_, ?_⟩
  · intro n h15 h20
    unfold no_centroids
    rw [if_neg h20, if_neg h15]
  · unfold no_centroids
    norm_num [sqrt_15000000]
  · unfold no_centroids
    norm_num [sqrt_20000000]

/-- Witness for C6's amended statement at the concrete off-tier size 100. -/
theorem no_centroids_exact_equality_tiers_witness :
    no_centroids 100 = Nat.sqrt 100 * 2 :=
  no_centroids_exact_equality_tiers.1 100 (by norm_num) (by norm_num)

/-- C7 counterexample: starting from a fully published index (directory,
posting file for centroid 0, centroid file all present) for a one-row store,
the build trace for new labels `[0]` contains four operations, and a failure
right after the first one — the `shutil.rmtree` of the old index — leaves a
state with no centroid file, no posting data and no index directory while
three build operations (including every write) are still outstanding.  The
previously published index is therefore destroyed before the new index is
constructed, refuting the claim. -/
theorem build_destroys_prior_index_counterexample :
    priorDisk.hasCentroids = true ∧
    priorDisk.postings 0 = [0] ∧
    (buildOps true [0]).length = 4 ∧
    (applyOps priorDisk ((buildOps true [0]).take 1)).hasCentroids = false ∧
    (applyOps priorDisk ((buildOps true [0]).take 1)).postings 0 = [] ∧
    (applyOps priorDisk ((buildOps true [0]).take 1)).dirExists = false := by
  exact ⟨rfl, rfl, rfl, rfl, rfl, rfl⟩

/-- C7 (amended): when an old index exists, the very first file-system
operation of `_build_index` is the removal of the old index directory, and
the write of the new centroid file is the very last; interrupting the build
after that first operation leaves a disk state with no index directory, no
posting data and no centroid file, regardless of what was published before.
The old index is removed before — not after — the new index is
constructed. -/
theorem build_removes_index_before_writes (labels : List Nat) (d : IndexDisk) :
    (buildOps true labels).head? = some FsOp.removeIndexDir ∧
    (buildOps true labels).getLast? = some FsOp.writeCentroids ∧
    (applyOps d ((buildOps true labels).take 1)).hasCentroids = false ∧
    (applyOps d ((buildOps true labels).take 1)).dirExists = false ∧
    ∀ c, (applyOps d ((buildOps true labels).take 1)).postings c = [] := by
  have hops : buildOps true labels
      = FsOp.removeIndexDir :: ([FsOp.makeIndexDir]
          ++ (npUnique labels).flatMap
              (fun l => (postingList labels l).map (FsOp.writePosting l))
          ++ [FsOp.writeCentroids]) := by
    unfold buildOps
    rw [if_pos rfl]
    simp [List.append_assoc]
  refine ⟨by rw [hops]; rfl, ?_, ?_, ?_, ?_⟩
  · rw [hops]
    show (FsOp.removeIndexDir :: ([FsOp.makeIndexDir]
        ++ (npUnique labels).flatMap
            (fun l => (postingList labels l).map (FsOp.writePosting l))
        ++ [FsOp.writeCentroids])).getLast? = some FsOp.writeCentroids
    rw [show FsOp.removeIndexDir :: ([FsOp.makeIndexDir]
        ++ (npUnique labels).flatMap
            (fun l => (postingList labels l).map (FsOp.writePosting l))
        ++ [FsOp.writeCentroids])
      = (FsOp.removeIndexDir :: ([FsOp.makeIndexDir]
          ++ (npUnique labels).flatMap
              (fun l => (postingList labels l).map (FsOp.writePosting l))))
        ++ [FsOp.writeCentroids] by simp]
    exact List.getLast?_concat _
  · rw [hops]; rfl
  · rw [hops]; rfl
  · intro c; rw [hops]; rfl

end VecDB

namespace VecDB

variable {α : Type u}

theorem pyInsert_perm (le : α → α → Bool) (x : α) (l : List α) :
    (pyInsert le x l).Perm (x :: l) := by
  induction l with
  | nil => exact List.Perm.refl _
  | cons y ys ih =>
    unfold pyInsert
    by_cases h : le y x = true
    · rw [if_pos h]
    · rw [if_neg h]
      exact (ih.cons y).trans (List.Perm.swap x y ys)

theorem pySortDesc_perm (le : α → α → Bool) (l : List α) :
    (pySortDesc le l).Perm l := by
  induction l with
  | nil => exact List.Perm.refl _
  | cons x xs ih => exact (pyInsert_perm le x (pySortDesc le xs)).trans (ih.cons x)

theorem pyInsert_pairwise (le : α → α → Bool)
    (htot : ∀ a b, le a b = true ∨ le b a = true)
    (htrans : ∀ a b c, le a b = true → le b c = true → le a c = true)
    (x : α) (l : List α) (h : l.Pairwise fun a b => le b a = true) :
    (pyInsert le x l).Pairwise fun a b => le b a = true := by
  induction l with
  | nil => simp [pyInsert]
  | cons y ys ih =>
    rw [List.pairwise_cons] at h
    obtain ⟨hy, hys⟩ := h
    unfold pyInsert
    by_cases hle : le y x = true
    · rw [if_pos hle, List.pairwise_cons]
      refine ⟨?_, List.pairwise_cons.mpr ⟨hy, hys⟩⟩
      intro z hz
      rcases List.mem_cons.mp hz with rfl | hz
      · exact hle
      · exact htrans z y x (hy z hz) hle
    · rw [if_neg hle, List.pairwise_cons]
      refine ⟨?_, ih hys⟩
      intro z hz
      rcases List.mem_cons.mp ((pyInsert_perm le x ys).mem_iff.mp hz) with rfl | hz
      · rcases htot z y with h | h
        · exact h
        · exact absurd h hle
      · exact hy z hz

theorem pySortDesc_pairwise (le : α → α → Bool)
    (htot : ∀ a b, le a b = true ∨ le b a = true)
    (htrans : ∀ a b c, le a b = true → le b c = true → le a c = true)
    (l : List α) :
    (pySortDesc le l).Pairwise fun a b => le b a = true := by
  induction l with
  | nil => simp [pySortDesc]
  | cons x xs ih => exact pyInsert_pairwise le htot htrans x _ ih

theorem nlargest_length (n : Nat) (le : α → α → Bool) (l : List α) :
    (nlargest n le l).length = min n l.length := by
  unfold nlargest
  rw [List.length_take, (pySortDesc_perm le l).length_eq]

theorem mem_of_mem_nlargest (n : Nat) (le : α → α → Bool) (l : List α) (a : α)
    (h : a ∈ nlargest n le l) : a ∈ l :=
  (pySortDesc_perm le l).mem_iff.mp (List.take_subset n _ h)

theorem nlargest_pairwise (n : Nat) (le : α → α → Bool)
    (htot : ∀ a b, le a b = true ∨ le b a = true)
    (htrans : ∀ a b c, le a b = true → le b c = true → le a c = true)
    (l : List α) :
    (nlargest n le l).Pairwise fun a b => le b a = true :=
  List.Pairwise.sublist (List.take_sublist n _) (pySortDesc_pairwise le htot htrans l)

theorem leKey_total : ∀ a b : ℚ × Nat, leKey a b = true ∨ leKey b a = true := by
  intro a b
  unfold leKey
  rcases le_total a.1 b.1 with h | h
  · exact Or.inl (decide_eq_true h)
  · exact Or.inr (decide_eq_true h)

theorem leKey_trans : ∀ a b c : ℚ × Nat,
    leKey a b = true → leKey b c = true → leKey a c = true := by
  intro a b c hab hbc
  exact decide_eq_true (le_trans (of_decide_eq_true hab) (of_decide_eq_true hbc))

theorem zip_map_self {β : Type u} (f : α → β) (l : List α) :
    (l.map f).zip l = l.map fun a => (f a, a) := by
  induction l with
  | nil => rfl
  | cons a t ih => rw [List.map_cons, List.map_cons, List.zip_cons_cons, ih]

theorem retrieve_eq (sqrtF : ℚ → ℚ) (store : List ℚ) (centroids : List (List ℚ))
    (postings : Nat → List Nat) (query : List ℚ) (top_k : Nat)
    (hne : probed_ids sqrtF store centroids postings query ≠ [])
    (hb : ∀ id ∈ probed_ids sqrtF store centroids postings query,
      (id + 1) * DIMENSION ≤ store.length) :
    retrieve sqrtF store centroids postings query top_k
      = (nlargest top_k leKey ((probed_ids sqrtF store centroids postings query).map
          fun i => (cal_score sqrtF (rowAt store i) query, i))).map fun p => p.2 := by
  simp only [retrieve]
  rw [get_rows_of_bounds store _ hne hb, List.map_map, zip_map_self]
  rfl

theorem retrieve_length (sqrtF : ℚ → ℚ) (store : List ℚ) (centroids : List (List ℚ))
    (postings : Nat → List Nat) (query : List ℚ) (top_k : Nat)
    (hne : probed_ids sqrtF store centroids postings query ≠ [])
    (hb : ∀ id ∈ probed_ids sqrtF store centroids postings query,
      (id + 1) * DIMENSION ≤ store.length) :
    (retrieve sqrtF store centroids postings query top_k).length
      = min top_k (probed_ids sqrtF store centroids postings query).length := by
  rw [retrieve_eq sqrtF store centroids postings query top_k hne hb,
    List.length_map, nlargest_length, List.length_map]

theorem retrieve_subset (sqrtF : ℚ → ℚ) (store : List ℚ) (centroids : List (List ℚ))
    (postings : Nat → List Nat) (query : List ℚ) (top_k : Nat)
    (hne : probed_ids sqrtF store centroids postings query ≠ [])
    (hb : ∀ id ∈ probed_ids sqrtF store centroids postings query,
      (id + 1) * DIMENSION ≤ store.length) :
    ∀ i ∈ retrieve sqrtF store centroids postings query top_k,
      i ∈ probed_ids sqrtF store centroids postings query := by
  intro i hi
  rw [retrieve_eq sqrtF store centroids postings query top_k hne hb] at hi
  obtain ⟨p, hp, rfl⟩ := List.mem_map.mp hi
  obtain ⟨i', hi', heq⟩ := List.mem_map.mp (mem_of_mem_nlargest _ _ _ _ hp)
  rw [← heq]
  exact hi'

theorem retrieve_sorted (sqrtF : ℚ → ℚ) (store : List ℚ) (centroids : List (List ℚ))
    (postings : Nat → List Nat) (query : List ℚ) (top_k : Nat)
    (hne : probed_ids sqrtF store centroids postings query ≠ [])
    (hb : ∀ id ∈ probed_ids sqrtF store centroids postings query,
      (id + 1) * DIMENSION ≤ store.length) :
    (retrieve sqrtF store centroids postings query top_k).Pairwise fun i j =>
      cal_score sqrtF (rowAt store j) query ≤ cal_score sqrtF (rowAt store i) query := by
  rw [retrieve_eq sqrtF store centroids postings query top_k hne hb, List.pairwise_map]
  have hpw := nlargest_pairwise top_k leKey leKey_total leKey_trans
    ((probed_ids sqrtF store centroids postings query).map
      fun i => (cal_score sqrtF (rowAt store i) query, i))
  refine List.Pairwise.imp_of_mem ?_ hpw
  intro a b ha hb' hr
  obtain ⟨ia, _, rfl⟩ := List.mem_map.mp (mem_of_mem_nlargest _ _ _ _ ha)
  obtain ⟨ib, _, rfl⟩ := List.mem_map.mp (mem_of_mem_nlargest _ _ _ _ hb')
  exact of_decide_eq_true hr

/-- C3 (amended): for a non-empty candidate set over in-range posting lists
and a nonzero-norm query, `retrieve` returns `min(top_k, M)` candidate ids
(`M` the number of gathered candidates), each drawn from the gathered
candidates, ordered by descending cosine score against the query.  Candidates
with equal scores keep the order in which the probed posting lists were
concatenated — the stable `nlargest` order — which is not in general
ascending id order (see the counterexample). -/
theorem retrieve_sorted_desc (sqrtF : ℚ → ℚ) (store : List ℚ) (centroids : List (List ℚ))
    (postings : Nat → List Nat) (query : List ℚ) (top_k : Nat)
    (hne : probed_ids sqrtF store centroids postings query ≠ [])
    (hb : ∀ id ∈ probed_ids sqrtF store centroids postings query,
      (id + 1) * DIMENSION ≤ store.length)
    (hq : npNorm sqrtF query ≠ 0) :
    (retrieve sqrtF store centroids postings query top_k).length
        = min top_k (probed_ids sqrtF store centroids postings query).length ∧
    (∀ i ∈ retrieve sqrtF store centroids postings query top_k,
        i ∈ probed_ids sqrtF store centroids postings query) ∧
    (retrieve sqrtF store centroids postings query top_k).Pairwise fun i j =>
      cal_score sqrtF (rowAt store j) query ≤ cal_score sqrtF (rowAt store i) query :=
  ⟨retrieve_length sqrtF store centroids postings query top_k hne hb,
    retrieve_subset sqrtF store centroids postings query top_k hne hb,
    retrieve_sorted sqrtF store centroids postings query top_k hne hb⟩

theorem dot_replicate_zero_left (n : Nat) (v : List ℚ) :
    dot (List.replicate n 0) v = 0 := by
  induction n generalizing v with
  | zero => rfl
  | succ n ih =>
    cases v with
    | nil => rfl
    | cons y ys =>
      rw [List.replicate_succ]
      show ((List.zip ((0 : ℚ) :: List.replicate n 0) (y :: ys)).map fun p => p.1 * p.2).sum = 0
      rw [List.zip_cons_cons, List.map_cons, List.sum_cons]
      show 0 * y + dot (List.replicate n 0) ys = 0
      rw [ih ys, zero_mul, add_zero]

theorem dot_replicate_zero_right (n : Nat) (v : List ℚ) :
    dot v (List.replicate n 0) = 0 := by
  induction v generalizing n with
  | nil => rfl
  | cons y ys ih =>
    cases n with
    | zero => rfl
    | succ n =>
      rw [List.replicate_succ]
      show ((List.zip (y :: ys) ((0 : ℚ) :: List.replicate n 0)).map fun p => p.1 * p.2).sum = 0
      rw [List.zip_cons_cons, List.map_cons, List.sum_cons]
      show y * 0 + dot ys (List.replicate n 0) = 0
      rw [ih n, mul_zero, add_zero]

theorem dot_cons (a b : ℚ) (as bs : List ℚ) :
    dot (a :: as) (b :: bs) = a * b + dot as bs := by
  show ((List.zip (a :: as) (b :: bs)).map fun p => p.1 * p.2).sum = a * b + dot as bs
  rw [List.zip_cons_cons, List.map_cons, List.sum_cons]
  rfl

theorem sumSq_cons (a : ℚ) (as : List ℚ) : sumSq (a :: as) = a * a + sumSq as := by
  show ((a :: as).map fun x => x * x).sum = a * a + sumSq as
  rw [List.map_cons, List.sum_cons]
  rfl

theorem sumSq_replicate_zero (n : Nat) : sumSq (List.replicate n 0) = 0 := by
  rw [sumSq, List.map_replicate, List.sum_replicate, zero_mul, smul_zero]

theorem sumSq_zero70 : sumSq zero70 = 0 :=
  sumSq_replicate_zero 70

theorem unit0_length : (unit0 : List ℚ).length = 70 := by
  simp [unit0]

theorem two0_length : (two0 : List ℚ).length = 70 := by
  simp [two0]

theorem db2_length : (db2 : List ℚ).length = 140 := by
  simp [db2, unit0, two0]

theorem numRecords_db2 : numRecords (db2 : List ℚ) = 2 := by
  show (db2 : List ℚ).length / DIMENSION = 2
  rw [db2_length]
  decide

theorem rowAt_db2_zero : rowAt db2 0 = unit0 := by
  show (db2.drop (0 * DIMENSION)).take DIMENSION = unit0
  rw [Nat.zero_mul, List.drop_zero, db2,
    show DIMENSION = (unit0 : List ℚ).length from by decide, List.take_left]

theorem rowAt_db2_one : rowAt db2 1 = two0 := by
  show (db2.drop (1 * DIMENSION)).take DIMENSION = two0
  rw [Nat.one_mul, db2, show DIMENSION = (unit0 : List ℚ).length from by decide,
    List.drop_left, List.take_of_length_le (by decide)]

theorem modelSqrt_zero : modelSqrt 0 = 0 := by
  norm_num [modelSqrt]

theorem modelSqrt_one : modelSqrt 1 = 1 := by
  norm_num [modelSqrt]

theorem modelSqrt_four : modelSqrt 4 = 2 := by
  norm_num [modelSqrt]

theorem dot_unit0_unit0 : dot unit0 unit0 = 1 := by
  show dot ((1 : ℚ) :: List.replicate 69 0) ((1 : ℚ) :: List.replicate 69 0) = 1
  rw [dot_cons, dot_replicate_zero_left]
  norm_num

theorem dot_two0_unit0 : dot two0 unit0 = 2 := by
  show dot ((2 : ℚ) :: List.replicate 69 0) ((1 : ℚ) :: List.replicate 69 0) = 2
  rw [dot_cons, dot_replicate_zero_left]
  norm_num

theorem sumSq_unit0 : sumSq unit0 = 1 := by
  show sumSq ((1 : ℚ) :: List.replicate 69 0) = 1
  rw [sumSq_cons, sumSq_replicate_zero]
  norm_num

theorem sumSq_two0 : sumSq two0 = 4 := by
  show sumSq ((2 : ℚ) :: List.replicate 69 0) = 4
  rw [sumSq_cons, sumSq_replicate_zero]
  norm_num

theorem npNorm_unit0 : npNorm modelSqrt unit0 = 1 := by
  rw [npNorm, sumSq_unit0, modelSqrt_one]

theorem npNorm_two0 : npNorm modelSqrt two0 = 2 := by
  rw [npNorm, sumSq_two0, modelSqrt_four]

theorem npNorm_zero70 : npNorm modelSqrt zero70 = 0 := by
  rw [npNorm, sumSq_zero70, modelSqrt_zero]

theorem cal_score_unit0_unit0 : cal_score modelSqrt unit0 unit0 = 1 := by
  rw [cal_score, dot_unit0_unit0, npNorm_unit0, npDiv]
  norm_num

theorem cal_score_two0_unit0 : cal_score modelSqrt two0 unit0 = 1 := by
  rw [cal_score, dot_two0_unit0, npNorm_two0, npNorm_unit0, npDiv]
  norm_num

theorem leLex_same_score_false (a : ℚ) (i j : Nat) (h : j < i) :
    leLex (a, i) (a, j) = false := by
  apply decide_eq_false
  rintro (hlt | ⟨heq, hle⟩)
  · exact lt_irrefl a hlt
  · omega

theorem leKey_same_score_true (a : ℚ) (i j : Nat) : leKey (a, i) (a, j) = true :=
  decide_eq_true le_rfl

theorem pySortDesc_pair_keep {β : Type u} (le : β → β → Bool) (x y : β)
    (h : le y x = true) : pySortDesc le [x, y] = [x, y] := by
  show pyInsert le x [y] = [x, y]
  simp only [pyInsert]
  rw [if_pos h]

theorem pySortDesc_pair_swap {β : Type u} (le : β → β → Bool) (x y : β)
    (h : le y x = false) : pySortDesc le [x, y] = [y, x] := by
  show pyInsert le x [y] = [y, x]
  simp only [pyInsert]
  rw [if_neg (by simp [h])]

theorem pyInsert_append {β : Type u} (le : β → β → Bool) (x : β) (l : List β)
    (h : ∀ y ∈ l, le y x = false) : pyInsert le x l = l ++ [x] := by
  induction l with
  | nil => rfl
  | cons y ys ih =>
    simp only [pyInsert]
    rw [if_neg (by simp [h y (List.mem_cons_self y ys)]),
      ih fun z hz => h z (List.mem_cons_of_mem y hz)]
    rfl

theorem sort_const_score (a : ℚ) : ∀ (n s : Nat),
    pySortDesc leLex ((List.range' s n).map fun i => (a, i))
      = ((List.range' s n).reverse).map fun i => (a, i) := by
  intro n
  induction n with
  | zero => intro s; rfl
  | succ n ih =>
    intro s
    rw [List.range'_succ, List.map_cons]
    show pyInsert leLex (a, s) (pySortDesc leLex ((List.range' (s + 1) n).map fun i => (a, i)))
        = ((s :: List.range' (s + 1) n).reverse).map fun i => (a, i)
    rw [ih (s + 1), List.reverse_cons, List.map_append, pyInsert_append]
    · rfl
    · intro y hy
      obtain ⟨j, hj, rfl⟩ := List.mem_map.mp hy
      rw [List.mem_reverse, List.mem_range'_1] at hj
      exact leLex_same_score_false a j s (by omega)

theorem zip_replicate_left {β γ : Type u} (a : β) (l : List γ) :
    (List.replicate l.length a).zip l = l.map fun b => (a, b) := by
  induction l with
  | nil => rfl
  | cons b t ih =>
    rw [List.length_cons, List.replicate_succ, List.zip_cons_cons, ih, List.map_cons]

theorem vectorized_cents2_unit0 :
    vectorized_cal_score modelSqrt cents2 unit0 = [1, 1] := by
  show [npDiv (dot unit0 unit0) (npNorm modelSqrt unit0 * npNorm modelSqrt unit0),
      npDiv (dot two0 unit0) (npNorm modelSqrt two0 * npNorm modelSqrt unit0)] = [1, 1]
  rw [dot_unit0_unit0, dot_two0_unit0, npNorm_unit0, npNorm_two0]
  norm_num [npDiv]

theorem tops2 : get_top_centroids modelSqrt cents2 unit0 12 = [((1 : ℚ), 1), ((1 : ℚ), 0)] := by
  unfold get_top_centroids
  rw [vectorized_cents2_unit0]
  show nlargest 12 leLex [((1 : ℚ), 0), ((1 : ℚ), 1)] = [((1 : ℚ), 1), ((1 : ℚ), 0)]
  unfold nlargest
  rw [pySortDesc_pair_swap leLex _ _ (leLex_same_score_false 1 1 0 (by omega))]
  rfl

theorem probed2 : probed_ids modelSqrt db2 cents2 postings2 unit0 = [1, 0] := by
  unfold probed_ids
  rw [numRecords_db2, show n_probs 2 = 12 from by norm_num [n_probs], tops2]
  decide

theorem retrieve_db2 : retrieve modelSqrt db2 cents2 postings2 unit0 5 = [1, 0] := by
  have hne : probed_ids modelSqrt db2 cents2 postings2 unit0 ≠ [] := by
    rw [probed2]
    decide
  have hb : ∀ id ∈ probed_ids modelSqrt db2 cents2 postings2 unit0,
      (id + 1) * DIMENSION ≤ (db2 : List ℚ).length := by
    rw [probed2, db2_length]
    decide
  rw [retrieve_eq modelSqrt db2 cents2 postings2 unit0 5 hne hb, probed2]
  show (nlargest 5 leKey [(cal_score modelSqrt (rowAt db2 1) unit0, 1),
      (cal_score modelSqrt (rowAt db2 0) unit0, 0)]).map (fun p => p.2) = [1, 0]
  rw [rowAt_db2_one, rowAt_db2_zero, cal_score_two0_unit0, cal_score_unit0_unit0]
  unfold nlargest
  rw [pySortDesc_pair_keep leKey _ _ (leKey_same_score_true 1 0 1)]
  rfl

/-- Witness for C3's amended statement at a concrete input (the two-row
store, probing both centroids). -/
theorem retrieve_sorted_desc_witness :
    (retrieve modelSqrt db2 cents2 postings2 unit0 5).length
      = min 5 (probed_ids modelSqrt db2 cents2 postings2 unit0).length :=
  (retrieve_sorted_desc modelSqrt db2 cents2 postings2 unit0 5
    (by rw [probed2]; decide)
    (by rw [probed2, db2_length]; decide)
    (by rw [npNorm_unit0]; norm_num)).1

/-- C3 counterexample: on the two-row store `db2` (rows `unit0` and `two0`,
parallel vectors, so both rows score exactly 1 against the query `unit0` —
an exact tie, exact in float arithmetic too, since scaling by 2 is exact),
with the index built from labels `[0, 1]`, `retrieve` returns `[1, 0]`: the
two equal-scored candidates appear in descending id order, because the
probed centroids are concatenated in centroid-score order with the higher
centroid index first (Python tuple comparison), and the stable top-k
selection preserves that order.  This refutes the claim that candidates with
equal scores appear in ascending row-id order. -/
theorem retrieve_tie_descending_counterexample :
    retrieve modelSqrt db2 cents2 postings2 unit0 5 = [1, 0] ∧
    cal_score modelSqrt (rowAt db2 0) unit0 = cal_score modelSqrt (rowAt db2 1) unit0 ∧
    npNorm modelSqrt unit0 ≠ 0 ∧
    numRecords db2 = 2 := by
  refine ⟨retrieve_db2, ?_, ?_, numRecords_db2⟩
  · rw [rowAt_db2_zero, rowAt_db2_one, cal_score_unit0_unit0, cal_score_two0_unit0]
  · rw [npNorm_unit0]
    norm_num

end VecDB

namespace VecDB

theorem db100_length : (db100 : List ℚ).length = 7000 := by
  rw [db100, flatten_length_of_dim]
  · rw [List.length_replicate]
    decide
  · intro r hr
    rw [List.eq_of_mem_replicate hr]
    decide

theorem numRecords_db100 : numRecords (db100 : List ℚ) = 100 := by
  show (db100 : List ℚ).length / DIMENSION = 100
  rw [db100_length]
  decide

theorem vectorized_cents20_unit0 :
    vectorized_cal_score modelSqrt cents20 unit0 = List.replicate 20 1 := by
  show (List.replicate 20 unit0).map
      (fun u => npDiv (dot u unit0) (npNorm modelSqrt u * npNorm modelSqrt unit0))
    = List.replicate 20 1
  rw [List.map_replicate, dot_unit0_unit0, npNorm_unit0]
  norm_num [npDiv]

theorem tops20 : get_top_centroids modelSqrt cents20 unit0 12
    = (((List.range' 0 20).reverse).map fun i => ((1 : ℚ), i)).take 12 := by
  unfold get_top_centroids nlargest
  rw [vectorized_cents20_unit0,
    show (cents20 : List (List ℚ)).length = 20 from by decide]
  have hz : (List.replicate 20 (1 : ℚ)).zip (List.range 20)
      = (List.range 20).map fun i => ((1 : ℚ), i) := by
    have h := zip_replicate_left (1 : ℚ) (List.range 20)
    rwa [List.length_range] at h
  rw [hz, List.range_eq_range', sort_const_score]

theorem probed_ids_db100 :
    probed_ids modelSqrt db100 cents20 postings100 unit0
      = (((((List.range' 0 20).reverse).map fun i => ((1 : ℚ), i)).take 12).map
          fun c => postings100 c.2).flatten := by
  unfold probed_ids
  rw [numRecords_db100, show n_probs 100 = 12 from by norm_num [n_probs], tops20]

/-- C8 (amended): on a 100-row store, `retrieve(query, topK = 1000)` returns
exactly the gathered candidates — the union of the `n_probs = 12` probed
posting lists — ranked; their number is at most 100 but equals 100 only when
the probed lists cover every row.  With `no_centroids 100 = 20` centroids and
only 12 probed, full coverage is not guaranteed (see the counterexample). -/
theorem retrieve_oversized_topk (sqrtF : ℚ → ℚ) (store : List ℚ) (centroids : List (List ℚ))
    (postings : Nat → List Nat) (query : List ℚ)
    (h100 : numRecords store = 100)
    (hne : probed_ids sqrtF store centroids postings query ≠ [])
    (hb : ∀ id ∈ probed_ids sqrtF store centroids postings query,
      (id + 1) * DIMENSION ≤ store.length)
    (hnodup : (probed_ids sqrtF store centroids postings query).Nodup)
    (hq : npNorm sqrtF query ≠ 0) :
    (retrieve sqrtF store centroids postings query 1000).length
        = (probed_ids sqrtF store centroids postings query).length ∧
    (probed_ids sqrtF store centroids postings query).length ≤ 100 := by
  have hsub : probed_ids sqrtF store centroids postings query ⊆ List.range 100 := by
    intro id hid
    rw [List.mem_range]
    have h2 := (lt_numRecords_iff store id).mpr (hb id hid)
    omega
  have hlen : (probed_ids sqrtF store centroids postings query).length ≤ 100 := by
    have h3 := (List.subperm_of_subset hnodup hsub).length_le
    simpa using h3
  refine ⟨?_, hlen⟩
  rw [retrieve_length sqrtF store centroids postings query 1000 hne hb]
  omega

/-- Witness for C8's amended statement at a concrete input (the 100-row
store with 20 clusters of 5 rows each). -/
theorem retrieve_oversized_topk_witness :
    (retrieve modelSqrt db100 cents20 postings100 unit0 1000).length
      = (probed_ids modelSqrt db100 cents20 postings100 unit0).length :=
  (retrieve_oversized_topk modelSqrt db100 cents20 postings100 unit0
    numRecords_db100
    (by rw [probed_ids_db100]; decide)
    (by rw [probed_ids_db100, db100_length]; decide)
    (by rw [probed_ids_db100]; decide)
    (by rw [npNorm_unit0]; norm_num)).1

/-- C8 counterexample: a 100-row store (rows all `unit0`, nonzero-norm query
`unit0`, index of 20 clusters of 5 consecutive rows built from `labels100`)
on which `retrieve(query, topK = 1000)` returns only 60 ids — the 12 probed
posting lists hold 5 rows each — and not the 100 ids the claim requires. -/
theorem retrieve_oversized_topk_counterexample :
    (retrieve modelSqrt db100 cents20 postings100 unit0 1000).length = 60 ∧
    (retrieve modelSqrt db100 cents20 postings100 unit0 1000).length ≠ 100 ∧
    numRecords db100 = 100 ∧
    npNorm modelSqrt unit0 ≠ 0 := by
  have hne : probed_ids modelSqrt db100 cents20 postings100 unit0 ≠ [] := by
    rw [probed_ids_db100]
    decide
  have hb : ∀ id ∈ probed_ids modelSqrt db100 cents20 postings100 unit0,
      (id + 1) * DIMENSION ≤ (db100 : List ℚ).length := by
    rw [probed_ids_db100, db100_length]
    decide
  have h : (retrieve modelSqrt db100 cents20 postings100 unit0 1000).length = 60 := by
    rw [retrieve_length modelSqrt db100 cents20 postings100 unit0 1000 hne hb,
      probed_ids_db100]
    decide
  refine ⟨h, ?_, numRecords_db100, by rw [npNorm_unit0]; norm_num⟩
  rw [h]
  decide

/-- C9 (amended): the engine has no zero-norm guard.  Both cosine scoring
functions are total: on a zero-norm operand the norm product is `0` and the
division is still performed — silently yielding non-finite float scores in
numpy (only a runtime warning) and `0` in the rational model — instead of any
explicit failure.  `retrieve` likewise processes a zero-norm query end to end
into a normal ranked id list (see the counterexample). -/
theorem cal_score_zero_norm_silent (sqrtF : ℚ → ℚ) (h0 : sqrtF 0 = 0) (v : List ℚ) :
    cal_score sqrtF zero70 v = 0 ∧
    ∀ vecs : List (List ℚ), vectorized_cal_score sqrtF vecs zero70 = vecs.map fun _ => 0 := by
  have hnorm : npNorm sqrtF zero70 = 0 := by
    rw [npNorm, sumSq_zero70, h0]
  constructor
  · rw [cal_score, show dot zero70 v = 0 from dot_replicate_zero_left 70 v, hnorm, npDiv]
    exact zero_div _
  · intro vecs
    rw [vectorized_cal_score]
    refine List.map_congr_left ?_
    intro u _
    rw [show dot u zero70 = 0 from dot_replicate_zero_right 70 u, hnorm, mul_zero, npDiv]
    exact zero_div _

/-- Witness for C9's amended statement: `_cal_score` on the zero vector
against `unit0` silently evaluates to a plain score value. -/
theorem cal_score_zero_norm_silent_witness :
    cal_score modelSqrt zero70 unit0 = 0 :=
  (cal_score_zero_norm_silent modelSqrt modelSqrt_zero unit0).1

theorem vectorized_cents2_zero :
    vectorized_cal_score modelSqrt cents2 zero70 = [0, 0] := by
  show [npDiv (dot unit0 zero70) (npNorm modelSqrt unit0 * npNorm modelSqrt zero70),
      npDiv (dot two0 zero70) (npNorm modelSqrt two0 * npNorm modelSqrt zero70)] = [0, 0]
  rw [npNorm_zero70,
    show dot unit0 zero70 = 0 from dot_replicate_zero_right 70 unit0,
    show dot two0 zero70 = 0 from dot_replicate_zero_right 70 two0]
  norm_num [npDiv]

theorem tops2_zero :
    get_top_centroids modelSqrt cents2 zero70 12 = [((0 : ℚ), 1), ((0 : ℚ), 0)] := by
  unfold get_top_centroids
  rw [vectorized_cents2_zero]
  show nlargest 12 leLex [((0 : ℚ), 0), ((0 : ℚ), 1)] = [((0 : ℚ), 1), ((0 : ℚ), 0)]
  unfold nlargest
  rw [pySortDesc_pair_swap leLex _ _ (leLex_same_score_false 0 1 0 (by omega))]
  rfl

theorem probed2_zero : probed_ids modelSqrt db2 cents2 postings2 zero70 = [1, 0] := by
  unfold probed_ids
  rw [numRecords_db2, show n_probs 2 = 12 from by norm_num [n_probs], tops2_zero]
  decide

/-- C9 counterexample: the query `zero70` has zero norm, yet no computation
fails: `_vectorized_cal_score` returns plain score values for every centroid
(the division with zero divisor is performed silently), and `retrieve` on
the two-row store processes the zero-norm query end to end and returns a
full two-element ranked id list.  This refutes the claim that every
cosine-similarity computation fails explicitly when an operand has zero
norm. -/
theorem zero_norm_query_counterexample :
    npNorm modelSqrt zero70 = 0 ∧
    vectorized_cal_score modelSqrt cents2 zero70 = [0, 0] ∧
    (retrieve modelSqrt db2 cents2 postings2 zero70 5).length = 2 := by
  refine ⟨npNorm_zero70, vectorized_cents2_zero, ?_⟩
  have hne : probed_ids modelSqrt db2 cents2 postings2 zero70 ≠ [] := by
    rw [probed2_zero]
    decide
  have hb : ∀ id ∈ probed_ids modelSqrt db2 cents2 postings2 zero70,
      (id + 1) * DIMENSION ≤ (db2 : List ℚ).length := by
    rw [probed2_zero, db2_length]
    decide
  rw [retrieve_length modelSqrt db2 cents2 postings2 zero70 5 hne hb, probed2_zero]
  decide

end VecDB
